import Mathlib

/-!
Verification development for the YouTube live watcher
(`auto_yt_live.py` / `yt_live_watcher.py`).

The two source files are near-duplicates; `yt_live_watcher.py` is the superset
(it adds the run-duration deadline and the rclone hand-off), so the loop
embedding below follows `yt_live_watcher.py`; every definition also embeds the
corresponding code of `auto_yt_live.py` where that file has it.

Modelling conventions:
* Python `datetime` timestamps are `Nat` seconds; `(a - b).total_seconds() > k`
  becomes `a - b > k` (truncated `Nat` subtraction agrees with the float
  comparison: a non-positive elapsed time is never `> k`).
* The external world (the yt-dlp extraction call, the spawned recorder process,
  the rclone run) is an oracle supplied as input data to each tick; the
  embedded code is the deterministic Python control flow around it.
* Every `print` becomes a string tag in an event trace, in program order.
-/

/-- Configuration constant `CHECK_INTERVAL` (default 15, both files). -/
def CHECK_INTERVAL : Nat := 15

/-- Configuration constant `QUIET_LOG_INTERVAL` (default 120, both files). -/
def QUIET_LOG_INTERVAL : Nat := 120

/-- Configuration constant `HEARTBEAT_INTERVAL` (default 300, both files). -/
def HEARTBEAT_INTERVAL : Nat := 300

/-- The structured result of a successful `ydl.extract_info` call, restricted
to the fields the source reads: `id`, `title`, `is_live`, `is_upcoming`,
`live_status`.  Python truthiness of `info.get("is_live")` /
`info.get("is_upcoming")` is modelled by the `Bool` fields. -/
structure ExtractInfo where
  id : Option String
  title : Option String
  is_live : Bool
  is_upcoming : Bool
  live_status : Option String
deriving DecidableEq

/-- Outcome of the `ydl.extract_info(video_url, download=False)` call as seen
by `get_video_info`: a returned value (where `none` stands for a falsy
result, covering Python `None` and an empty dict), a raised
`yt_dlp.utils.DownloadError` with its message, or any other raised
exception with its message. -/
inductive ExtractOutcome where
  | ok (info : Option ExtractInfo)
  | downloadError (msg : String)
  | otherError (msg : String)
deriving DecidableEq

/-- The dict returned by `get_video_info`, restricted to the keys the source
ever sets: `status`, `video_id`, `title`, `errmsg`.  A key that a given
return site does not set is `none`. -/
structure ProbeResult where
  status : String
  video_id : Option String := none
  title : Option String := none
  errmsg : Option String := none
deriving DecidableEq

/-- Python truthiness of an optional string (`None` and `""` are falsy). -/
def strTruthy : Option String → Bool
  | none => false
  | some s => !(s == "")

/-- `pat.isPrefixOf l || ...` scan: Python `pat in s` substring containment
over character lists. -/
def listContainsSub (pat : List Char) : List Char → Bool
  | [] => pat.isEmpty
  | c :: rest => pat.isPrefixOf (c :: rest) || listContainsSub pat rest

/-- Python `pat in s` substring containment on strings. -/
def strContainsSub (s pat : String) : Bool :=
  listContainsSub pat.toList s.toList

/-- Character class `[A-Za-z0-9_-]` of the source regex
`r"\[youtube\]\s*([A-Za-z0-9_-]{11})"`. -/
def idChar (c : Char) : Bool :=
  ('A' ≤ c && c ≤ 'Z') || ('a' ≤ c && c ≤ 'z') || ('0' ≤ c && c ≤ '9') ||
    c == '_' || c == '-'

/-- ASCII whitespace, the `\s` class of the source regex (the messages it is
applied to are ASCII; the Unicode extension of `\s` is not modelled). -/
def wsChar (c : Char) : Bool :=
  c == ' ' || c == '\t' || c == '\n' || c == '\r' ||
    c == '\x0b' || c == '\x0c'

/-- Greedy `\s*`: drop the maximal whitespace run.  Greedy matching without
backtracking is exact here because no whitespace character is in
`[A-Za-z0-9_-]`, so a shorter whitespace run can never make the following
group match. -/
def dropWs : List Char → List Char
  | [] => []
  | c :: rest => if wsChar c then dropWs rest else c :: rest

/-- The group `([A-Za-z0-9_-]{11})`: exactly the next 11 characters, all in
the class (the regex puts no constraint on the character after the group). -/
def takeId11 (l : List Char) : Option String :=
  if (l.take 11).length = 11 ∧ (l.take 11).all idChar = true then
    some (String.mk (l.take 11))
  else none

/-- Try the whole pattern `\[youtube\]\s*([A-Za-z0-9_-]{11})` anchored at the
start of `l` (the literal `"[youtube]"` is 9 characters long). -/
def matchYtTag (l : List Char) : Option String :=
  if "[youtube]".toList <+: l then takeId11 (dropWs (l.drop 9)) else none

/-- `re.search`: try the pattern at each position left to right and return the
captured group of the leftmost match. -/
def searchYtId : List Char → Option String
  | [] => none
  | c :: rest =>
    match matchYtTag (c :: rest) with
    | some v => some v
    | none => searchYtId rest

/-- `re.search(r"\[youtube\]\s*([A-Za-z0-9_-]{11})", msg)` followed by
`m.group(1) if m else None`, from the `DownloadError` handler of
`get_video_info`. -/
def findUpcomingId (msg : String) : Option String :=
  searchYtId msg.toList

/-- `get_video_info(video_url, deep_scan)` (lines 33-75 of `auto_yt_live.py`,
lines 43-78 of `yt_live_watcher.py`), as a function of the extraction
outcome.  Every code path of the source returns a dict; the `try/except`
wrappers make the function total (it never raises to its caller). -/
def get_video_info (outcome : ExtractOutcome) (deep_scan : Bool) : ProbeResult :=
  match outcome with
  | .ok none => { status := "not_live" }
  | .ok (some info) =>
    if info.is_live then
      { status := "live", video_id := info.id, title := info.title }
    else if info.is_upcoming || info.live_status == some "is_upcoming" then
      { status := "upcoming", video_id := info.id, title := info.title }
    else if !deep_scan && strTruthy info.id then
      { status := "inconclusive", video_id := info.id, title := info.title }
    else
      { status := "not_live", video_id := info.id, title := info.title }
  | .downloadError msg =>
    if strContainsSub msg "live event will begin" then
      { status := "upcoming", video_id := findUpcomingId msg, errmsg := some msg }
    else
      { status := "error", errmsg := some msg }
  | .otherError msg => { status := "error", errmsg := some msg }

/-- How the spawned recorder child process reacts to a stop attempt.
`terminateRaises`: `current_proc.terminate()` raises an exception.
`exitsWithinGrace`: after a successful `terminate()`, the child exits within
the 5-second window of `current_proc.wait(timeout=5)`. -/
structure ProcBehavior where
  terminateRaises : Bool
  exitsWithinGrace : Bool
deriving DecidableEq

/-- One observable event of the loop: a printed line (by tag), a
`stop_current_recording` reaching its `finally` block (which clears the
session pair), an `upload_downloads_to_drive` invocation (with whether the
recorder child is still running at that moment), a spawn attempt by
`start_record`, and the `break` that ends the loop. -/
inductive Ev where
  | log (tag : String)
  | stopCleared
  | upload (childAlive : Bool)
  | startCall
  | breakLoop
deriving DecidableEq

/-- Result of `stop_current_recording`: the values of the `current_proc` /
`current_vid_id` nonlocals after the call, whether `current_proc.kill()` was
executed, whether the child process is still running when the call returns,
and the trace of the call in program order. -/
structure StopRes where
  proc : Option ProcBehavior
  vid : Option String
  killCalled : Bool
  childAlive : Bool
  evs : List Ev
deriving DecidableEq

/-- `stop_current_recording` (lines 108-123 of `auto_yt_live.py`, lines
146-161 of `yt_live_watcher.py`).  The `try` block runs
`current_proc.terminate()` then `current_proc.wait(timeout=5)`; per the
semantics of `subprocess.Popen.wait`, the `wait` call returns normally only
when the child has exited within the grace period, and raises
`TimeoutExpired` when the child is still running at the end of it.  After a
normal return the child has exited, so `current_proc.poll()` yields its exit
code (not `None`) and the `if current_proc.poll() is None: ... kill()`
branch is not taken; on `TimeoutExpired` (or an exception from `terminate`)
control jumps to the `except` handler before the poll/kill lines.  The
`finally` block always clears both nonlocals. -/
def stop_current_recording (proc : Option ProcBehavior) (vid : Option String) :
    StopRes :=
  match proc with
  | none => ⟨proc, vid, false, false, []⟩
  | some b =>
    let tryRes : Except Unit Bool :=
      if b.terminateRaises then .error ()
      else if b.exitsWithinGrace then
        .ok false
      else
        .error ()
    match tryRes with
    | .ok killed =>
      ⟨none, none, killed, false,
        [.log "terminating", .log "stopped", .stopCleared]⟩
    | .error _ =>
      ⟨none, none, false, true,
        [.log "terminating", .log "stop_error", .log "stopped", .stopCleared]⟩

/-- Outcome of the blocking `subprocess.run(upload_cmd, ..., timeout=1800)`
inside `upload_downloads_to_drive`: a completed run with its exit code and
captured streams, the 30-minute `TimeoutExpired`, or any other raised
exception with its message. -/
inductive UploadOutcome where
  | completed (returncode : Int) (stdout stderr : String)
  | timeoutExpired
  | unexpected (msg : String)
deriving DecidableEq

/-- `upload_downloads_to_drive` (lines 101-137 of `yt_live_watcher.py`) as the
list of lines it prints, in order.  With `DEBUG = True` a successful run
with non-empty captured stderr also prints the rclone log.  The
`except subprocess.TimeoutExpired` and `except Exception` handlers cover
every failure of the run, so the function is total: it never raises to its
caller, and it touches no loop state. -/
def upload_downloads_to_drive (o : UploadOutcome) : List String :=
  ["upload_attempt", "upload_cmd"] ++
    match o with
    | .completed rc _out err =>
      if rc = 0 then
        ["upload_complete"] ++ (if err ≠ "" then ["rclone_log: " ++ err] else [])
      else
        ["upload_error_rc", "rclone_stderr: " ++ err, "rclone_stdout: " ++ _out]
    | .timeoutExpired => ["upload_timeout"]
    | .unexpected m => ["upload_unexpected: " ++ m]

/-- The loop-carried nonlocals of `watch_loop`: `current_proc`,
`current_vid_id`, `last_logged_state`, `last_logged_time`. -/
structure LoopState where
  current_proc : Option ProcBehavior
  current_vid_id : Option String
  last_logged_state : String
  last_logged_time : Nat
deriving DecidableEq

/-- The oracle for one iteration of the `while True` loop: the clock reading
(`now`, collapsing the `datetime.now()` calls of one iteration to one tick
timestamp), whether `end_time and datetime.now() >= end_time` holds, the
result of `current_proc.poll() is not None` for an active process, the
outcomes of the quick and deep `extract_info` calls, the result of
`start_record` (which catches its own exceptions and returns the spawned
handle or `None`), the lines read from the child during the inner progress
relay loop, and the outcome of the rclone run if one happens. -/
structure TickInput where
  now : Nat
  deadlineReached : Bool
  pollExited : Bool
  quickOutcome : ExtractOutcome
  deepOutcome : ExtractOutcome
  startSucceeds : Option ProcBehavior
  relayLines : List String
  uploadOutcome : UploadOutcome
deriving DecidableEq

/-- The progress-relay filter of the inner loop:
`"[download]" in output and "Destination:" not in output`. -/
def relayKeep (line : String) : Bool :=
  strContainsSub line "[download]" && !(strContainsSub line "Destination:")

/-- The shared throttled-logging pattern
`if last_logged_state != key or (now - last_logged_time).total_seconds() >
QUIET_LOG_INTERVAL: print(...); last_logged_state = key;
last_logged_time = now` used by the `no_video` and `waiting` branches of
`watch_loop`. -/
def throttledLog (s : LoopState) (key : String) (now : Nat) (tag : String) :
    LoopState × List Ev :=
  if s.last_logged_state ≠ key ∨ now - s.last_logged_time > QUIET_LOG_INTERVAL then
    ({ s with last_logged_state := key, last_logged_time := now }, [.log tag])
  else (s, [])

/-- The scan-and-act part of one `watch_loop` iteration (lines 149-204 of
`auto_yt_live.py`, lines 204-270 of `yt_live_watcher.py`): quick scan,
`no_video` throttled log when the candidate id is falsy, otherwise deep
scan; on `"live"` with a candidate differing from `current_vid_id`:
`stop_current_recording()` then `start_record`, and on spawn success the
session fields and throttle fields are set and the inner relay loop runs;
on any other status the throttled `waiting_{id}` log. -/
def scan_phase (s : LoopState) (inp : TickInput) : LoopState × List Ev :=
  let channel_info := get_video_info inp.quickOutcome false
  if strTruthy channel_info.video_id = true then
    let candidate := channel_info.video_id.getD ""
    let final_status_info := get_video_info inp.deepOutcome true
    if final_status_info.status = "live" then
      if s.current_vid_id ≠ some candidate then
        let st := stop_current_recording s.current_proc s.current_vid_id
        match inp.startSucceeds with
        | some nb =>
          ({ current_proc := some nb, current_vid_id := some candidate,
             last_logged_state := "recording", last_logged_time := inp.now },
           [.log "live_detected"] ++ st.evs ++ [.startCall, .log "record_started"] ++
             (inp.relayLines.filter relayKeep).map Ev.log ++ [.log "newline"])
        | none =>
          ({ current_proc := none, current_vid_id := st.vid,
             last_logged_state := "error", last_logged_time := s.last_logged_time },
           [.log "live_detected"] ++ st.evs ++ [.startCall, .log "start_failed"])
      else (s, [])
    else throttledLog s ("waiting_" ++ candidate) inp.now "waiting"
  else throttledLog s "no_video" inp.now "no_video"

/-- One iteration of the `while True` loop of `watch_loop`
(lines 173-274 of `yt_live_watcher.py`; `auto_yt_live.py` lines 133-208 is
the same without the deadline branch and the upload calls).  Order of the
deadline branch: optional stop, then upload, then `break`.  Order of the
recorder-exited branch: exit log, upload, stop, `last_logged_state =
"stopped"`, then fall through (no `continue`) into the scan of the same
iteration.  Otherwise an active recorder gets the heartbeat check and the
iteration ends with `continue`. -/
def tick (s : LoopState) (inp : TickInput) : LoopState × List Ev :=
  if inp.deadlineReached then
    let st := stop_current_recording s.current_proc s.current_vid_id
    ({ current_proc := st.proc, current_vid_id := st.vid,
       last_logged_state := s.last_logged_state,
       last_logged_time := s.last_logged_time },
     [.log "limit_reached"] ++ st.evs ++ [.upload st.childAlive] ++
       (upload_downloads_to_drive inp.uploadOutcome).map Ev.log ++ [.breakLoop])
  else
    match s.current_proc with
    | some b =>
      if inp.pollExited then
        let st := stop_current_recording (some b) s.current_vid_id
        let s2 : LoopState :=
          { current_proc := st.proc, current_vid_id := st.vid,
            last_logged_state := "stopped", last_logged_time := s.last_logged_time }
        let rest := scan_phase s2 inp
        (rest.1,
         [.log "recorder_exited", .upload false] ++
           (upload_downloads_to_drive inp.uploadOutcome).map Ev.log ++
           st.evs ++ rest.2)
      else
        if inp.now - s.last_logged_time > HEARTBEAT_INTERVAL then
          ({ s with last_logged_time := inp.now }, [.log "heartbeat"])
        else (s, [])
    | none => scan_phase s inp

/-- `handle_sigint` (lines 163-168 of `yt_live_watcher.py`): stop any active
recording, attempt one final upload, then `sys.exit(0)`.
(`auto_yt_live.py` lines 125-128 is the same without the upload.) -/
def handle_sigint (s : LoopState) (o : UploadOutcome) : LoopState × List Ev :=
  let st := stop_current_recording s.current_proc s.current_vid_id
  ({ current_proc := st.proc, current_vid_id := st.vid,
     last_logged_state := s.last_logged_state,
     last_logged_time := s.last_logged_time },
   [.log "sigint"] ++ st.evs ++ [.upload st.childAlive] ++
     (upload_downloads_to_drive o).map Ev.log)

/-- `true` iff every occurrence of `b` in the trace is preceded by an earlier
occurrence of `a`. -/
def precededBy (a b : Ev) : List Ev → Bool
  | [] => true
  | x :: rest => if x = b then false else if x = a then true else precededBy a b rest

/-- The session-pair invariant of `watch_loop`: the process handle and the
tracked video id are cleared together and set together. -/
def sessionInv (s : LoopState) : Prop :=
  s.current_proc = none ↔ s.current_vid_id = none

lemma dropWs_decomp (l : List Char) :
    ∃ ws, l = ws ++ dropWs l ∧ ws.all wsChar = true := by
  induction l with
  | nil => exact ⟨[], rfl, rfl⟩
  | cons c rest ih =>
    by_cases h : wsChar c = true
    · obtain ⟨ws, h1, h2⟩ := ih
      refine ⟨c :: ws, ?_, ?_⟩
      · simp only [dropWs, h, if_true, List.cons_append]
        exact congrArg (c :: ·) h1
      · simp [h, h2]
    · exact ⟨[], by simp [dropWs, h], rfl⟩

lemma takeId11_decomp (l : List Char) (v : String) (h : takeId11 l = some v) :
    ∃ post, l = v.toList ++ post ∧ v.toList.length = 11 ∧
      v.toList.all idChar = true := by
  unfold takeId11 at h
  split at h
  case isTrue hcond =>
    obtain ⟨h1, h2⟩ := hcond
    injection h with h
    subst h
    exact ⟨l.drop 11, (List.take_append_drop 11 l).symm, h1, h2⟩
  case isFalse => cases h

lemma matchYtTag_decomp (l : List Char) (v : String) (h : matchYtTag l = some v) :
    ∃ ws post, l = "[youtube]".toList ++ ws ++ v.toList ++ post ∧
      ws.all wsChar = true ∧ v.toList.length = 11 ∧ v.toList.all idChar = true := by
  unfold matchYtTag at h
  split at h
  case isTrue hp =>
    obtain ⟨t, ht⟩ := hp
    have hlen : ("[youtube]".toList).length = 9 := rfl
    have hdrop : l.drop 9 = t := by rw [← ht, ← hlen, List.drop_left]
    rw [hdrop] at h
    obtain ⟨ws, hws1, hws2⟩ := dropWs_decomp t
    obtain ⟨post, hpost, hlen11, hchars⟩ := takeId11_decomp _ _ h
    refine ⟨ws, post, ?_, hws2, hlen11, hchars⟩
    rw [← ht]
    rw [hws1, hpost]
    simp [List.append_assoc]
  case isFalse => cases h

lemma searchYtId_decomp (l : List Char) (v : String) (h : searchYtId l = some v) :
    ∃ pre ws post, l = pre ++ "[youtube]".toList ++ ws ++ v.toList ++ post ∧
      ws.all wsChar = true ∧ v.toList.length = 11 ∧ v.toList.all idChar = true := by
  induction l with
  | nil => cases h
  | cons c rest ih =>
    unfold searchYtId at h
    cases hm : matchYtTag (c :: rest) with
    | some w =>
      rw [hm] at h
      injection h with h
      subst h
      obtain ⟨ws, post, h1, h2, h3, h4⟩ := matchYtTag_decomp _ _ hm
      exact ⟨[], ws, post, by simpa using h1, h2, h3, h4⟩
    | none =>
      rw [hm] at h
      obtain ⟨pre, ws, post, h1, h2, h3, h4⟩ := ih h
      exact ⟨c :: pre, ws, post, by simp [h1], h2, h3, h4⟩

/-- Claim C4: for every extraction outcome and deep flag, the probe
`get_video_info` is total (it never raises: every exception of the
extraction call is caught and converted to a returned dict) and its status
lies in the closed set; a deep scan never returns `inconclusive`; an absent
extraction result yields `not_live`; and on a deep scan an extraction result
with no live/upcoming signal yields `not_live`. -/
theorem probe_status_closed (o : ExtractOutcome) (deep : Bool) :
    (get_video_info o deep).status ∈
        (["live", "upcoming", "not_live", "inconclusive", "error"] : List String)
    ∧ (deep = true → (get_video_info o deep).status ≠ "inconclusive")
    ∧ (o = .ok none → (get_video_info o deep).status = "not_live")
    ∧ (∀ i, o = .ok (some i) → i.is_live = false →
        (i.is_upcoming || i.live_status == some "is_upcoming") = false →
        deep = true → (get_video_info o deep).status = "not_live") := by
  refine ⟨?_, ?_, ?_, ?_⟩
  · rcases o with info | msg | msg
    · rcases info with _ | i
      · simp [get_video_info]
      · simp only [get_video_info]
        split_ifs <;> simp
    · simp only [get_video_info]
      split_ifs <;> simp
    · simp [get_video_info]
  · intro hdeep
    subst hdeep
    rcases o with info | msg | msg
    · rcases info with _ | i
      · simp [get_video_info]
      · simp only [get_video_info]
        split_ifs <;> simp_all
    · simp only [get_video_info]
      split_ifs <;> simp
    · simp [get_video_info]
  · intro h
    subst h
    rfl
  · intro i h h1 h2 hdeep
    subst h
    subst hdeep
    simp [get_video_info, h1, h2]

/-- Claim C4, witness: concrete instances of the hypotheses-bearing
conjuncts. -/
theorem probe_status_closed_w :
    (get_video_info (.ok none) true).status = "not_live"
    ∧ (get_video_info (.ok (some ⟨some "abc12345678", none, false, false, none⟩))
        true).status = "not_live"
    ∧ (get_video_info (.ok (some ⟨some "abc12345678", none, false, false, none⟩))
        true).status ≠ "inconclusive" :=
  ⟨(probe_status_closed (.ok none) true).2.2.1 rfl,
   (probe_status_closed (.ok (some ⟨some "abc12345678", none, false, false, none⟩))
      true).2.2.2 _ rfl rfl (by decide) rfl,
   (probe_status_closed (.ok (some ⟨some "abc12345678", none, false, false, none⟩))
      true).2.1 rfl⟩

/-- Claim C5: a `DownloadError` whose message contains the begins-in-future
pattern is reclassified as `upcoming`, with `video_id` the result of the
regex search over the message (the 11-character `[A-Za-z0-9_-]` token
following the literal `[youtube]` tag and optional whitespace when the
search succeeds, absent otherwise); every other extraction failure yields
`error` carrying the captured message. -/
theorem probe_upcoming_reclass (msg : String) (deep : Bool)
    (h : strContainsSub msg "live event will begin" = true) :
    get_video_info (.downloadError msg) deep =
        { status := "upcoming", video_id := findUpcomingId msg,
          errmsg := some msg }
    ∧ (∀ v, findUpcomingId msg = some v →
        ∃ pre ws post,
          msg.toList = pre ++ "[youtube]".toList ++ ws ++ v.toList ++ post ∧
            ws.all wsChar = true ∧ v.toList.length = 11 ∧
            v.toList.all idChar = true)
    ∧ (∀ m, strContainsSub m "live event will begin" = false →
        get_video_info (.downloadError m) deep =
          { status := "error", errmsg := some m })
    ∧ (∀ m, get_video_info (.otherError m) deep =
        { status := "error", errmsg := some m }) := by
  refine ⟨?_, ?_, ?_, ?_⟩
  · simp [get_video_info, h]
  · intro v hv
    exact searchYtId_decomp _ _ hv
  · intro m hm
    simp [get_video_info, hm]
  · intro m
    rfl

/-- Claim C5, witness: the reclassification evaluated on a concrete
begins-in-future message. -/
theorem probe_upcoming_reclass_w :
    get_video_info
        (.downloadError
          "ERROR: [youtube] abc12345678: This live event will begin in a few moments.")
        false =
      { status := "upcoming",
        video_id := findUpcomingId
          "ERROR: [youtube] abc12345678: This live event will begin in a few moments.",
        errmsg := some
          "ERROR: [youtube] abc12345678: This live event will begin in a few moments." } :=
  (probe_upcoming_reclass _ false (by decide)).1

/-- Claim C1: the forced kill is unreachable.  For every process behavior and
tracked id, `stop_current_recording` never executes `current_proc.kill()`:
when the child is still alive at the end of the 5-second grace period,
`current_proc.wait(timeout=5)` raises `TimeoutExpired` and control jumps to
the `except` handler, skipping the `poll() is None` check and the `kill()`
call, and after a normal `wait` return the child has already exited.  In
particular (second conjunct) a child that survives the grace period is still
running when `stop_current_recording` returns. -/
theorem stop_kill_unreachable (p : Option ProcBehavior) (v : Option String) :
    (stop_current_recording p v).killCalled = false
    ∧ (stop_current_recording (some ⟨false, false⟩) v).childAlive = true := by
  constructor
  · rcases p with _ | b
    · rfl
    · rcases b with ⟨tr, ex⟩
      cases tr <;> cases ex <;> rfl
  · rfl

lemma stop_clears_pair (b : ProcBehavior) (v : Option String) :
    (stop_current_recording (some b) v).proc = none ∧
      (stop_current_recording (some b) v).vid = none := by
  rcases b with ⟨tr, ex⟩
  cases tr <;> cases ex <;> exact ⟨rfl, rfl⟩

/-- Claim C8: for every stop of an active session, whatever the process does
(graceful exit, survival past the grace period with the resulting
`TimeoutExpired`, or an exception from `terminate`), the `finally` block
clears both `current_proc` and `current_vid_id`. -/
theorem stop_always_clears (b : ProcBehavior) (v : Option String) :
    (stop_current_recording (some b) v).proc = none ∧
      (stop_current_recording (some b) v).vid = none :=
  stop_clears_pair b v

lemma stop_no_break (p : Option ProcBehavior) (v : Option String) :
    Ev.breakLoop ∉ (stop_current_recording p v).evs := by
  rcases p with _ | ⟨tr, ex⟩
  · simp [stop_current_recording]
  · cases tr <;> cases ex <;> simp [stop_current_recording]

lemma not_mem_map_log (e : Ev) (h : ∀ t, e ≠ Ev.log t) (l : List String) :
    e ∉ l.map Ev.log := by
  intro hmem
  obtain ⟨t, _, ht⟩ := List.mem_map.mp hmem
  exact h t ht.symm

lemma precededBy_map_log_append (a b : Ev) (ha : ∀ t, Ev.log t ≠ a)
    (hb : ∀ t, Ev.log t ≠ b) (l : List String) (l2 : List Ev) :
    precededBy a b (l.map Ev.log ++ l2) = precededBy a b l2 := by
  induction l with
  | nil => rfl
  | cons t rest ih =>
    simp only [List.map_cons, List.cons_append, precededBy]
    rw [if_neg (hb t), if_neg (ha t)]
    exact ih

/-- Claim C2 (refuting evidence): when the run-duration deadline is reached
(and likewise on SIGINT) while the recorder child survives the 5-second
grace period, `stop_current_recording` returns with the child still running
(`wait` raised `TimeoutExpired` and the kill line is never reached), and the
hand-off `upload_downloads_to_drive` is then invoked while the child process
is still alive — contradicting the claim that the hand-off is never invoked
while the child is running. -/
theorem handoff_while_child_alive :
    Ev.upload true ∈
        (tick ⟨some ⟨false, false⟩, some "abc12345678", "recording", 0⟩
          ⟨100, true, false, .ok none, .ok none, none, [],
            .timeoutExpired⟩).2
    ∧ Ev.upload true ∈
        (handle_sigint ⟨some ⟨false, false⟩, some "abc12345678", "recording", 0⟩
          .timeoutExpired).2 := by
  decide

/-- Claim C7 (counterexample): the heartbeat decision is not independent of
the general throttle's quiet-period timestamp.  Two loop states that are
identical except for `last_logged_time` (the throttle timestamp) — same
active recorder, same tracked id, same dedup key, same tick input — differ
in whether the heartbeat line is emitted: there is no separate last-heartbeat
field, the heartbeat reads the shared `last_logged_time`. -/
theorem heartbeat_reads_throttle_clock :
    Ev.log "heartbeat" ∈
        (tick ⟨some ⟨false, true⟩, some "abc12345678", "recording", 0⟩
          ⟨500, false, false, .ok none, .ok none, none, [],
            .timeoutExpired⟩).2
    ∧ Ev.log "heartbeat" ∉
        (tick ⟨some ⟨false, true⟩, some "abc12345678", "recording", 400⟩
          ⟨500, false, false, .ok none, .ok none, none, [],
            .timeoutExpired⟩).2 := by
  decide

/-- Claim C7 (amended): while a recording is active and the child has not
exited, a heartbeat line is emitted on a tick exactly when the elapsed time
since the shared `last_logged_time` timestamp exceeds `HEARTBEAT_INTERVAL`;
that shared timestamp serves as the heartbeat reference (an emission resets
it to the tick's clock), and the decision is independent of the general
throttle's dedup key `last_logged_state`. -/
theorem heartbeat_cadence (s : LoopState) (b : ProcBehavior) (inp : TickInput)
    (hp : s.current_proc = some b) (hd : inp.deadlineReached = false)
    (he : inp.pollExited = false) :
    (Ev.log "heartbeat" ∈ (tick s inp).2 ↔
      inp.now - s.last_logged_time > HEARTBEAT_INTERVAL)
    ∧ (Ev.log "heartbeat" ∈ (tick s inp).2 →
        (tick s inp).1.last_logged_time = inp.now)
    ∧ (∀ k, (tick { s with last_logged_state := k } inp).2 = (tick s inp).2) := by
  by_cases hhb : inp.now - s.last_logged_time > HEARTBEAT_INTERVAL <;>
    simp [tick, hd, hp, he, hhb]

/-- Claim C7 (amended), witness: a tick 500 time units after the reference
with the default 300-unit heartbeat interval emits the heartbeat. -/
theorem heartbeat_cadence_w :
    Ev.log "heartbeat" ∈
      (tick ⟨some ⟨false, true⟩, some "abc12345678", "recording", 0⟩
        ⟨500, false, false, .ok none, .ok none, none, [],
          .timeoutExpired⟩).2 :=
  ((heartbeat_cadence _ ⟨false, true⟩ _ rfl rfl rfl).1).mpr (by decide)

/-- Claim C3: on a tick whose deep scan confirms `live` for a truthy candidate
id, (1) if the candidate equals the currently tracked `current_vid_id` and
the active recorder has not exited, no new recording is started; (2) if a
session exists at tick entry, every spawn attempt in the tick's trace is
preceded by a `stop_current_recording` clearing — stop-before-start holds at
the transition boundary. -/
theorem live_start_guard (s : LoopState) (inp : TickInput) (c : String)
    (hd : inp.deadlineReached = false)
    (hc : (get_video_info inp.quickOutcome false).video_id = some c)
    (hne : c ≠ "")
    (hlive : (get_video_info inp.deepOutcome true).status = "live") :
    (s.current_vid_id = some c → inp.pollExited = false →
      Ev.startCall ∉ (tick s inp).2)
    ∧ (s.current_proc.isSome = true →
        precededBy Ev.stopCleared Ev.startCall (tick s inp).2 = true) := by
  have htr : strTruthy (get_video_info inp.quickOutcome false).video_id = true := by
    rw [hc]; simp [strTruthy, hne]
  have hcand : (get_video_info inp.quickOutcome false).video_id.getD "" = c := by
    rw [hc]; rfl
  have hml : ∀ (l : List String) (l2 : List Ev),
      precededBy Ev.stopCleared Ev.startCall (l.map Ev.log ++ l2) =
        precededBy Ev.stopCleared Ev.startCall l2 :=
    fun l l2 =>
      precededBy_map_log_append _ _ (fun t => by simp) (fun t => by simp) l l2
  constructor
  · intro hvid hpe
    rcases hcp : s.current_proc with _ | b
    · simp [tick, hd, hcp, scan_phase, htr, hcand, hlive, hvid]
    · simp [tick, hd, hcp, hpe]
      split <;> simp
  · intro hsome
    rcases hcp : s.current_proc with _ | b
    · rw [hcp] at hsome; simp at hsome
    · by_cases hpe : inp.pollExited = true
      · rcases b with ⟨tr, ex⟩
        cases tr <;> cases ex <;>
          simp [tick, hd, hcp, hpe, stop_current_recording, precededBy, hml,
            List.append_assoc]
      · have hpe' : inp.pollExited = false := by
          revert hpe; cases inp.pollExited <;> simp
        simp [tick, hd, hcp, hpe']
        split <;> simp [precededBy]

/-- Claim C3, witness: a tick with an active recording of the same id and a
deep-scan `live` result for that id starts nothing. -/
theorem live_start_guard_w :
    Ev.startCall ∉
      (tick ⟨some ⟨false, true⟩, some "abc12345678", "recording", 0⟩
        ⟨100, false, false,
          .ok (some ⟨some "abc12345678", none, false, false, none⟩),
          .ok (some ⟨some "abc12345678", none, true, false, none⟩),
          some ⟨false, true⟩, [], .timeoutExpired⟩).2 :=
  (live_start_guard _ _ "abc12345678" rfl (by decide) (by decide) (by decide)).1
    rfl rfl

/-- Claim C6: on an idle tick whose deep scan does not report `live`, the
`waiting_{id}` log line is emitted iff the dedup key differs from
`last_logged_state` or the elapsed time since `last_logged_time` exceeds
`QUIET_LOG_INTERVAL`; consequently, starting from a differing key, the first
of two consecutive identical-key ticks emits exactly one line and the second
emits a line iff the two ticks span more than the quiet period — so two such
events within the quiet period produce exactly one line, and spanning more
than the quiet period produce two. -/
theorem throttle_dedup_iff (s : LoopState) (inp inp2 : TickInput) (c : String)
    (hd : inp.deadlineReached = false) (hd2 : inp2.deadlineReached = false)
    (hp : s.current_proc = none)
    (hc : (get_video_info inp.quickOutcome false).video_id = some c)
    (hc2 : (get_video_info inp2.quickOutcome false).video_id = some c)
    (hne : c ≠ "")
    (hnl : (get_video_info inp.deepOutcome true).status ≠ "live")
    (hnl2 : (get_video_info inp2.deepOutcome true).status ≠ "live") :
    (Ev.log "waiting" ∈ (tick s inp).2 ↔
      (s.last_logged_state ≠ "waiting_" ++ c ∨
        inp.now - s.last_logged_time > QUIET_LOG_INTERVAL))
    ∧ (s.last_logged_state ≠ "waiting_" ++ c →
        (tick s inp).2 = [Ev.log "waiting"]
        ∧ (tick (tick s inp).1 inp2).2 =
            (if inp2.now - inp.now > QUIET_LOG_INTERVAL then [Ev.log "waiting"]
             else [])) := by
  have htr : strTruthy (get_video_info inp.quickOutcome false).video_id = true := by
    rw [hc]; simp [strTruthy, hne]
  have htr2 : strTruthy (get_video_info inp2.quickOutcome false).video_id = true := by
    rw [hc2]; simp [strTruthy, hne]
  have hcand : (get_video_info inp.quickOutcome false).video_id.getD "" = c := by
    rw [hc]; rfl
  have hcand2 : (get_video_info inp2.quickOutcome false).video_id.getD "" = c := by
    rw [hc2]; rfl
  have h1 : tick s inp =
      throttledLog s ("waiting_" ++ c) inp.now "waiting" := by
    simp [tick, hd, hp, scan_phase, htr, hcand, hnl]
  constructor
  · rw [h1]
    by_cases hcnd : s.last_logged_state ≠ "waiting_" ++ c ∨
        inp.now - s.last_logged_time > QUIET_LOG_INTERVAL <;>
      simp [throttledLog, hcnd]
  · intro hkey
    have hcnd : s.last_logged_state ≠ "waiting_" ++ c ∨
        inp.now - s.last_logged_time > QUIET_LOG_INTERVAL := Or.inl hkey
    have h2 : throttledLog s ("waiting_" ++ c) inp.now "waiting" =
        (LoopState.mk s.current_proc s.current_vid_id ("waiting_" ++ c) inp.now,
          [Ev.log "waiting"]) := by
      simp [throttledLog, hcnd]
    refine ⟨by rw [h1, h2], ?_⟩
    rw [h1, h2]
    have h3 : tick
        (LoopState.mk s.current_proc s.current_vid_id ("waiting_" ++ c) inp.now)
        inp2 =
        throttledLog
          (LoopState.mk s.current_proc s.current_vid_id ("waiting_" ++ c) inp.now)
          ("waiting_" ++ c) inp2.now "waiting" := by
      simp [tick, hd2, hp, scan_phase, htr2, hcand2, hnl2]
    rw [h3]
    by_cases hq : inp2.now - inp.now > QUIET_LOG_INTERVAL <;>
      simp [throttledLog, hq]

/-- Claim C6, witness: from the initial throttle state a waiting tick emits
its line (key differs). -/
theorem throttle_dedup_iff_w :
    Ev.log "waiting" ∈
      (tick ⟨none, none, "initial", 0⟩
        ⟨50, false, false,
          .ok (some ⟨some "abc12345678", none, false, false, none⟩),
          .ok (some ⟨some "abc12345678", none, false, false, none⟩),
          none, [], .timeoutExpired⟩).2 :=
  ((throttle_dedup_iff _ _
      ⟨100, false, false,
        .ok (some ⟨some "abc12345678", none, false, false, none⟩),
        .ok (some ⟨some "abc12345678", none, false, false, none⟩),
        none, [], .timeoutExpired⟩
      "abc12345678" rfl rfl rfl (by decide) (by decide) (by decide)
      (by decide) (by decide)).1).mpr (Or.inl (by decide))

lemma scan_phase_no_break (s : LoopState) (inp : TickInput) :
    Ev.breakLoop ∉ (scan_phase s inp).2 := by
  rcases hss : inp.startSucceeds with _ | nb <;>
    (unfold scan_phase throttledLog
     simp only [hss]
     split_ifs <;> simp [stop_no_break])

/-- Claim C9: the hand-off is contained.  (1) The loop state after a tick does
not depend on the outcome of the rclone run; (2) whenever the deadline has
not been reached the loop never breaks, whatever the hand-off outcome —
monitoring resumes; (3) a non-zero rclone exit is logged together with the
captured stderr and stdout; (4) the 30-minute timeout is logged; (5) an
unexpected exception is caught and logged with its message —
`upload_downloads_to_drive` never raises to its caller. -/
theorem handoff_contained (s : LoopState) (inp : TickInput) (o : UploadOutcome) :
    ((tick s (TickInput.mk inp.now inp.deadlineReached inp.pollExited
        inp.quickOutcome inp.deepOutcome inp.startSucceeds inp.relayLines o)).1 =
      (tick s inp).1)
    ∧ (inp.deadlineReached = false → Ev.breakLoop ∉ (tick s inp).2)
    ∧ (∀ (rc : Int) (out err : String), rc ≠ 0 →
        ("rclone_stderr: " ++ err) ∈
            upload_downloads_to_drive (.completed rc out err)
        ∧ ("rclone_stdout: " ++ out) ∈
            upload_downloads_to_drive (.completed rc out err))
    ∧ ("upload_timeout" ∈ upload_downloads_to_drive .timeoutExpired)
    ∧ (∀ m, ("upload_unexpected: " ++ m) ∈
        upload_downloads_to_drive (.unexpected m)) := by
  refine ⟨?_, ?_, ?_, ?_, ?_⟩
  · obtain ⟨cp, cv, ls, lt⟩ := s
    obtain ⟨n, d, pe, qo, dp, ss, rl, uo⟩ := inp
    cases d <;> cases cp <;> cases pe <;> rfl
  · intro hdl
    rcases hcp : s.current_proc with _ | b
    · simp only [tick, hdl]
      simp only [hcp]
      exact scan_phase_no_break _ _
    · simp only [tick, hdl]
      simp only [hcp]
      by_cases hpe : inp.pollExited = true
      · simp [hpe, stop_no_break, scan_phase_no_break]
      · have hpe' : inp.pollExited = false := by
          revert hpe; cases inp.pollExited <;> simp
        simp only [hpe']
        simp only [Bool.false_eq_true, if_false]
        split <;> simp
  · intro rc out err hrc
    constructor <;> simp [upload_downloads_to_drive, hrc]
  · simp [upload_downloads_to_drive]
  · intro m
    simp [upload_downloads_to_drive]

/-- Claim C9, witness: a failed rclone run (exit code 1) has its stderr
logged, and a non-deadline tick never breaks the loop. -/
theorem handoff_contained_w :
    ("rclone_stderr: " ++ "boom") ∈
        upload_downloads_to_drive (.completed 1 "out" "boom")
    ∧ Ev.breakLoop ∉
        (tick ⟨none, none, "initial", 0⟩
          ⟨100, false, false, .ok none, .ok none, none, [],
            .completed 1 "out" "boom"⟩).2 :=
  ⟨((handoff_contained ⟨none, none, "initial", 0⟩
      ⟨100, false, false, .ok none, .ok none, none, [],
        .completed 1 "out" "boom"⟩
      (.completed 1 "out" "boom")).2.2.1 1 "out" "boom" (by decide)).1,
   (handoff_contained ⟨none, none, "initial", 0⟩
      ⟨100, false, false, .ok none, .ok none, none, [],
        .completed 1 "out" "boom"⟩
      (.completed 1 "out" "boom")).2.1 rfl⟩

lemma throttledLog_inv (s : LoopState) (k : String) (n : Nat) (tag : String)
    (h : sessionInv s) : sessionInv (throttledLog s k n tag).1 := by
  unfold throttledLog
  split <;> simpa [sessionInv] using h

lemma scan_phase_inv (s : LoopState) (inp : TickInput) (h : sessionInv s) :
    sessionInv (scan_phase s inp).1 := by
  have hv : s.current_proc = none → s.current_vid_id = none := by
    unfold sessionInv at h
    exact h.mp
  rcases hss : inp.startSucceeds with _ | nb <;>
    (unfold scan_phase throttledLog
     simp only [hss]
     split_ifs <;>
      first
        | exact h
        | (rcases hcp : s.current_proc with _ | b
           · simp [sessionInv, stop_current_recording, hcp, hv hcp]
           · simp [sessionInv, hcp, (stop_clears_pair b s.current_vid_id).2]))

/-- Claim C10: the session-pair invariant is preserved by every tick.  If the
process handle and the tracked video id are `None` together or non-`None`
together at a tick boundary, the same holds after the tick: they are set as
a pair on a successful start and cleared as a pair by
`stop_current_recording`'s `finally` block. -/
theorem tick_session_inv (s : LoopState) (inp : TickInput) (h : sessionInv s) :
    sessionInv (tick s inp).1 := by
  unfold tick
  split
  · rcases hcp : s.current_proc with _ | b
    · have hv : s.current_vid_id = none := by
        unfold sessionInv at h
        exact h.mp hcp
      simp [sessionInv, stop_current_recording, hcp, hv]
    · rcases b with ⟨tr, ex⟩
      cases tr <;> cases ex <;> simp [sessionInv, stop_current_recording, hcp]
  · rcases hcp : s.current_proc with _ | b
    · exact scan_phase_inv _ _ h
    · by_cases hpe : inp.pollExited = true
      · simp only [hpe, if_true]
        apply scan_phase_inv
        rcases b with ⟨tr, ex⟩
        cases tr <;> cases ex <;> simp [sessionInv, stop_current_recording]
      · have hpe' : inp.pollExited = false := by
          revert hpe; cases inp.pollExited <;> simp
        simp only [hpe', Bool.false_eq_true, if_false]
        split <;> simpa [sessionInv, hcp] using h

/-- Claim C10, witness: the invariant holds after a tick from the initial
state. -/
theorem tick_session_inv_w :
    sessionInv
      (tick ⟨none, none, "initial", 0⟩
        ⟨100, false, false, .ok none, .ok none, none, [],
          .timeoutExpired⟩).1 :=
  tick_session_inv _ _ (by unfold sessionInv; exact ⟨fun _ => rfl, fun _ => rfl⟩)
